import Mathlib

/-!
Shallow embedding of the firefly-categorizer core: the classifier cascade
(memory matcher, tfidf text classifier, llm fallback), the categorization
pipeline (auto-approval policy) and the training orchestrator
(bulk retraining, dedup by seen ids, cooperative pause), together with
theorems settling the specified properties.

Conventions of the embedding:
- Python floats for confidences/thresholds are modelled as rationals.
- Python None is modelled as Option.none; a Python dict used as an ordered
  string map is modelled as an association list in insertion order.
- External collaborators are parameters: the rapidfuzz similarity scorer is
  a function argument, the fitted sklearn model is an argmax oracle
  returning the top class and its probability (none models the caught
  exception path), the llm response text and the ledger write result are
  arguments, and wall-clock timing is elided.
- Stateful methods are modelled by explicit state passing: a method that
  mutates self returns the updated value.
-/

/-- Category value from models.py: only the name takes part in matching. -/
structure Category where
  name : String
  id : Option String := none
  deriving Repr, DecidableEq

/-- Transaction value from models.py; the date is kept as its rendered text
since no core logic inspects it. -/
structure Transaction where
  description : String
  amount : Rat := 0
  date : String := ""
  account_name : Option String := none
  currency : String := "EUR"
  deriving Repr, DecidableEq

/-- CategorizationResult from models.py. -/
structure CategorizationResult where
  category : Category
  confidence : Rat
  source : String
  model_version : Option String := none
  deriving Repr, DecidableEq

/-- Validity helper shared by the classifiers: the local is_valid closure in
MemoryMatcher.classify and the inline check in TfidfClassifier.classify. -/
def isValidCategory (validCategories : Option (List String)) (catName : String) : Bool :=
  match validCategories with
  | none => true
  | some v => v.contains catName

/-- Lookup in the description-to-category mapping (Python dict membership
and indexing). -/
def memLookup (memory : List (String × String)) (key : String) : Option String :=
  match memory with
  | [] => none
  | (k, v) :: rest => if k = key then some v else memLookup rest key

/-- Assignment memory[key] = val on a Python dict: overwrite in place if the
key exists, else append, preserving insertion order. -/
def memUpdate (memory : List (String × String)) (key val : String) :
    List (String × String) :=
  match memory with
  | [] => [(key, val)]
  | (k, v) :: rest =>
    if k = key then (k, val) :: rest else (k, v) :: memUpdate rest key val

/-- rapidfuzz process.extractOne: best-scoring choice, first one wins ties
(a later choice replaces the incumbent only on a strictly greater score). -/
def extractOne (scorer : String → String → Rat) (query : String)
    (choices : List String) : Option (String × Rat) :=
  choices.foldl
    (fun best c =>
      match best with
      | none => some (c, scorer query c)
      | some (_, bs) =>
        if scorer query c > bs then some (c, scorer query c) else best)
    none

/-- MemoryMatcher state from classifiers/memory.py: the description to
category-name mapping and the fuzzy threshold (default 90). -/
structure MemoryMatcher where
  memory : List (String × String) := []
  threshold : Rat := 90
  deriving Repr, DecidableEq

/-- Fuzzy-match step of MemoryMatcher.classify: best fuzzy match between
the description and every stored key, accepted when its score reaches the
threshold and the matched category passes the restriction. -/
def MemoryMatcher.fuzzyClassify (m : MemoryMatcher) (scorer : String → String → Rat)
    (transaction : Transaction) (validCategories : Option (List String)) :
    Option CategorizationResult :=
  match extractOne scorer transaction.description (m.memory.map Prod.fst) with
  | none => none
  | some (matchDescription, score) =>
    if m.threshold ≤ score then
      match memLookup m.memory matchDescription with
      | some categoryName =>
        if isValidCategory validCategories categoryName then
          some { category := { name := categoryName },
                 confidence := score / 100, source := "memory_fuzzy" }
        else none
      | none => none
    else none

/-- MemoryMatcher.classify: none on empty memory; exact lookup first,
returned when the stored category passes the restriction; in every other
case control falls through to the fuzzy-match step. The scorer stands for
fuzz.token_sort_ratio. -/
def MemoryMatcher.classify (m : MemoryMatcher) (scorer : String → String → Rat)
    (transaction : Transaction) (validCategories : Option (List String)) :
    Option CategorizationResult :=
  if m.memory.isEmpty then none
  else
    match memLookup m.memory transaction.description with
    | some categoryName =>
      if isValidCategory validCategories categoryName then
        some { category := { name := categoryName }, confidence := 1,
               source := "memory_exact" }
      else m.fuzzyClassify scorer transaction validCategories
    | none => m.fuzzyClassify scorer transaction validCategories

/-- MemoryMatcher.learn: overwrite the mapping entry for the exact
description (persistence elided). -/
def MemoryMatcher.learn (m : MemoryMatcher) (transaction : Transaction)
    (category : Category) : MemoryMatcher :=
  { m with memory := memUpdate m.memory transaction.description category.name }

/-- MemoryMatcher.clear: empty the mapping. -/
def MemoryMatcher.clear (m : MemoryMatcher) : MemoryMatcher :=
  { m with memory := [] }

/-- TfidfClassifier state from classifiers/tfidf.py: the accumulated
example/label sequences, the fitted flag and the confidence threshold
(default 1/2). The fitted sklearn pipeline is a derived artifact and is
passed to classify as an oracle. -/
structure TfidfClassifier where
  examples : List String := []
  labels : List String := []
  is_fitted : Bool := false
  threshold : Rat := 1/2
  deriving Repr, DecidableEq

/-- TfidfClassifier.classify: none when unfitted; otherwise the predictProba
oracle yields the argmax class and its probability for the description
(none models the caught exception path); the result is returned only when
the confidence reaches the threshold and the predicted class passes the
restriction — otherwise none, with no fallback to a runner-up class. -/
def TfidfClassifier.classify (c : TfidfClassifier)
    (predictProba : String → Option (String × Rat))
    (transaction : Transaction) (validCategories : Option (List String)) :
    Option CategorizationResult :=
  if !c.is_fitted then none
  else
    match predictProba transaction.description with
    | none => none
    | some (categoryName, confidence) =>
      if c.threshold ≤ confidence then
        if isValidCategory validCategories categoryName then
          some { category := { name := categoryName }, confidence := confidence,
                 source := "tfidf" }
        else none
      else none

/-- TfidfClassifier.learn: append the example and label; once at least two
distinct labels exist, refit (modelled by the fitted flag) and persist. -/
def TfidfClassifier.learn (c : TfidfClassifier) (transaction : Transaction)
    (category : Category) : TfidfClassifier :=
  let examples := c.examples ++ [transaction.description]
  let labels := c.labels ++ [category.name]
  if 2 ≤ labels.dedup.length then
    { c with examples := examples, labels := labels, is_fitted := true }
  else
    { c with examples := examples, labels := labels }

/-- TfidfClassifier.clear: discard examples and labels and reset to
untrained. -/
def TfidfClassifier.clear (c : TfidfClassifier) : TfidfClassifier :=
  { c with examples := [], labels := [], is_fitted := false }

/-- LLMClassifier.classify from classifiers/llm.py, with the extracted
response text passed in as the outputText oracle (none covers both the
missing-output path and the caught network/parsing exception). The Python
truthiness test on valid_categories makes the membership filter apply only
when the list is present and non-empty; the returned name is the stripped
response, the confidence the fixed heuristic 9/10. -/
def LLMClassifier.classify (outputText : Option String)
    (_transaction : Transaction) (validCategories : Option (List String)) :
    Option CategorizationResult :=
  match outputText with
  | none => none
  | some raw =>
    let categoryName := raw.trim
    match validCategories with
    | some v =>
      if v.isEmpty || v.contains categoryName then
        some { category := { name := categoryName }, confidence := 9/10,
               source := "llm" }
      else none
    | none =>
      some { category := { name := categoryName }, confidence := 9/10,
             source := "llm" }

/-- CategorizerService from manager.py: the memory matcher, the tfidf
classifier, and a flag recording whether the llm classifier was added
(present iff an api key was configured at construction). -/
structure CategorizerService where
  memory : MemoryMatcher := {}
  tfidf : TfidfClassifier := {}
  llmEnabled : Bool := false
  deriving Repr, DecidableEq

/-- CategorizerService.categorize: iterate the classifiers in their fixed
construction order (memory, tfidf, llm when enabled) and return the first
non-none result. -/
def CategorizerService.categorize (s : CategorizerService)
    (scorer : String → String → Rat)
    (predictProba : String → Option (String × Rat))
    (llmOutput : Option String)
    (transaction : Transaction) (validCategories : Option (List String)) :
    Option CategorizationResult :=
  match s.memory.classify scorer transaction validCategories with
  | some result => some result
  | none =>
    match s.tfidf.classify predictProba transaction validCategories with
    | some result => some result
    | none =>
      if s.llmEnabled then
        LLMClassifier.classify llmOutput transaction validCategories
      else none

/-- CategorizerService.learn: teach both trainable strategies; the llm
strategy is excluded by design. -/
def CategorizerService.learn (s : CategorizerService) (transaction : Transaction)
    (category : Category) : CategorizerService :=
  { s with memory := s.memory.learn transaction category,
           tfidf := s.tfidf.learn transaction category }

/-- CategorizerService.clear_models: clear both trainable strategies. -/
def CategorizerService.clear_models (s : CategorizerService) : CategorizerService :=
  { s with memory := s.memory.clear, tfidf := s.tfidf.clear }

/-- merge_tags from domain/tags.py: existing tags first, then the new tags,
dropping empty strings and duplicates while preserving first-seen order. -/
def merge_tags (existingTags : Option (List String)) (newTags : List String) :
    List String :=
  let step := fun (merged : List String) (tag : String) =>
    if tag != "" && !merged.contains tag then merged ++ [tag] else merged
  newTags.foldl step ((existingTags.getD []).foldl step [])

/-- CategorizationPipeline.auto_approval_reason from services/categorization.py
restricted to its pure decision core: the logging is elided and the
threshold is supplied by the caller (the env read happens before this
logic). Returns the rejection reason and the threshold. -/
def auto_approval_reason (threshold : Rat) (prediction : CategorizationResult) :
    Option String × Rat :=
  if threshold ≤ 0 then (some "disabled", threshold)
  else if prediction.confidence < threshold then (some "low_confidence", threshold)
  else (none, threshold)

/-- Outcome of evaluate_auto_approval with the state made explicit: the
returned (success, reason) pair of the source, whether the ledger write was
attempted with which tags payload, and the cascade state afterwards. -/
structure AutoApprovalOutcome where
  success : Bool
  reason : String
  writeAttempted : Bool
  tagsPayload : Option (List String)
  service : CategorizerService
  deriving Repr, DecidableEq

/-- CategorizationPipeline.apply_auto_approval: build the tags payload
(merge with configured auto-approve tags when present, otherwise pass the
existing tags through or omit them per caller context), attempt the ledger
write — its result is the writeSucceeds oracle — and teach the cascade only
when the write succeeded. -/
def apply_auto_approval (service : CategorizerService) (writeSucceeds : Bool)
    (transaction : Transaction) (prediction : CategorizationResult)
    (existingTags : List String) (autoTags : List String)
    (includeExistingWhenNoAuto : Bool) : Bool × Option (List String) × CategorizerService :=
  let tagsPayload :=
    if !autoTags.isEmpty then some (merge_tags (some existingTags) autoTags)
    else if includeExistingWhenNoAuto then some existingTags else none
  (writeSucceeds, tagsPayload,
    if writeSucceeds then service.learn transaction prediction.category else service)

/-- CategorizationPipeline.evaluate_auto_approval: when auto_approval_reason
rejects, return (false, reason) without touching the ledger or the cascade;
otherwise delegate to apply_auto_approval and report "updated" or "failed". -/
def evaluate_auto_approval (service : CategorizerService) (writeSucceeds : Bool)
    (transaction : Transaction) (prediction : CategorizationResult)
    (existingTags : List String) (autoTags : List String)
    (includeExistingWhenNoAuto : Bool) (threshold : Rat) : AutoApprovalOutcome :=
  match (auto_approval_reason threshold prediction).1 with
  | some reason =>
    { success := false, reason := reason, writeAttempted := false,
      tagsPayload := none, service := service }
  | none =>
    let applied := apply_auto_approval service writeSucceeds transaction prediction
      existingTags autoTags includeExistingWhenNoAuto
    { success := applied.1,
      reason := if applied.1 then "updated" else "failed",
      writeAttempted := true, tagsPayload := applied.2.1,
      service := applied.2.2 }

/-- Python truthiness of an optional string: false for None and for the
empty string. -/
def truthyOpt : Option String → Bool
  | none => false
  | some s => s != ""

/-- Transaction record as consumed by the training orchestrator, the fields
of the snapshot built by build_transaction_snapshot that training reads:
the external id, the existing category name and the transaction value. -/
structure TxData where
  txId : Option String := none
  categoryName : Option String := none
  transaction : Transaction := { description := "" }
  deriving Repr, DecidableEq

/-- Set insertion into the seen-id set (kept as a duplicate-free list). -/
def insertId (seen : List String) (i : String) : List String :=
  if seen.contains i then seen else seen ++ [i]

/-- Accumulator of TrainingManager._process_training_page: the three
counters plus the threaded cascade and seen-id state (per-example durations
are wall-clock data and are elided). -/
structure PageOutcome where
  trained : Nat := 0
  skippedUncategorized : Nat := 0
  skippedDuplicate : Nat := 0
  service : CategorizerService := {}
  seenIds : List String := []
  deriving Repr, DecidableEq

/-- Body of the per-transaction loop in _process_training_page: skip as
duplicate when the id is truthy and already seen; skip as uncategorized
when the category name is falsy; otherwise teach the cascade and record the
id when truthy. -/
def processTrainingStep (acc : PageOutcome) (t : TxData) : PageOutcome :=
  if truthyOpt t.txId && acc.seenIds.contains (t.txId.getD "") then
    { acc with skippedDuplicate := acc.skippedDuplicate + 1 }
  else if !truthyOpt t.categoryName then
    { acc with skippedUncategorized := acc.skippedUncategorized + 1 }
  else
    { acc with
      trained := acc.trained + 1,
      service := acc.service.learn t.transaction { name := t.categoryName.getD "" },
      seenIds :=
        if truthyOpt t.txId then insertId acc.seenIds (t.txId.getD "")
        else acc.seenIds }

/-- TrainingManager._process_training_page over one fetched page. -/
def processTrainingPage (service : CategorizerService) (seenIds : List String)
    (page : List TxData) : PageOutcome :=
  page.foldl processTrainingStep
    { trained := 0, skippedUncategorized := 0, skippedDuplicate := 0,
      service := service, seenIds := seenIds }

/-- Accumulated result of TrainingManager.train_bulk: the counters of the
returned status dict plus the threaded cascade and seen-id state. -/
structure BulkOutcome where
  trained : Nat := 0
  skipped : Nat := 0
  skippedDuplicate : Nat := 0
  fetched : Nat := 0
  service : CategorizerService := {}
  seenIds : List String := []
  deriving Repr, DecidableEq

/-- Per-page step of train_bulk: count the fetched transactions, process
the page, and add its counters. -/
def bulkStep (acc : BulkOutcome) (page : List TxData) : BulkOutcome :=
  let out := processTrainingPage acc.service acc.seenIds page
  { trained := acc.trained + out.trained,
    skipped := acc.skipped + out.skippedUncategorized,
    skippedDuplicate := acc.skippedDuplicate + out.skippedDuplicate,
    fetched := acc.fetched + page.length,
    service := out.service, seenIds := out.seenIds }

/-- TrainingManager.train_bulk: iterate all pages yielded by the ledger
collaborator (the paged dataset is the pages argument), processing each in
turn. -/
def train_bulk (service : CategorizerService) (seenIds : List String)
    (pages : List (List TxData)) : BulkOutcome :=
  pages.foldl bulkStep
    { trained := 0, skipped := 0, skippedDuplicate := 0, fetched := 0,
      service := service, seenIds := seenIds }

/-- Status snapshot held in TrainingManager.status, restricted to the keys
the core logic writes uniformly (the derived percent and the wall-clock
moving-average display fields are elided). -/
structure TrainStatus where
  stage : String := "idle"
  active : Bool := false
  trained : Nat := 0
  skipped : Nat := 0
  fetched : Nat := 0
  total : Nat := 0
  deriving Repr, DecidableEq

/-- TrainingManager mutable state from services/training.py: the active
flag, the cooperative pause event, the seen-id set and the status snapshot. -/
structure TrainingManager where
  active : Bool := false
  pauseEvent : Bool := false
  seenIds : List String := []
  status : TrainStatus := {}
  deriving Repr, DecidableEq

/-- TrainingManager.reset_state: unconditionally clear the seen ids, the
pause event and the status, returning the number of cleared ids. -/
def TrainingManager.reset_state (tm : TrainingManager) : TrainingManager × Nat :=
  ({ active := false, pauseEvent := false, seenIds := [],
     status := { stage := "idle", active := false } },
   tm.seenIds.length)

/-- TrainingManager.clear_seen_ids: clear only the seen ids, returning the
cleared count. -/
def TrainingManager.clear_seen_ids (tm : TrainingManager) : TrainingManager × Nat :=
  ({ tm with seenIds := [] }, tm.seenIds.length)

/-- TrainingManager.request_pause: set the pause event only while a run is
active, reporting whether it took effect. -/
def TrainingManager.request_pause (tm : TrainingManager) : TrainingManager × Bool :=
  if tm.active then ({ tm with pauseEvent := true }, true) else (tm, false)

/-- reset_training_state route (POST /train-reset from api/routes/training.py):
rejected with HTTP 409 while a run is active, otherwise clears the seen ids. -/
def reset_training_state (tm : TrainingManager) :
    Except String (TrainingManager × Nat) :=
  if tm.active then Except.error "Training in progress"
  else Except.ok tm.clear_seen_ids

/-- clear_models route (POST /clear-models from api/routes/training.py):
clears the cascade models and resets the training state with no check of
the active flag. -/
def clear_models_route (service : CategorizerService) (tm : TrainingManager) :
    CategorizerService × TrainingManager × String :=
  (service.clear_models, (tm.reset_state).1, "success")

/-- Progress event emitted by TrainingManager.stream, restricted to the
stage and counter fields (percent and the duration displays are elided;
the fetched field carries total_fetched). -/
structure StreamEvent where
  stage : String
  trained : Nat := 0
  skipped : Nat := 0
  fetched : Nat := 0
  deriving Repr, DecidableEq

/-- Loop state of TrainingManager.stream. -/
structure StreamState where
  trainedCount : Nat := 0
  skippedCount : Nat := 0
  skippedDuplicate : Nat := 0
  totalFetched : Nat := 0
  totalEstimate : Nat := 0
  pauseRequested : Bool := false
  service : CategorizerService := {}
  seenIds : List String := []
  events : List StreamEvent := []
  deriving Repr, DecidableEq

/-- Scheduling model of the cooperative pause event: the checks of
pause_event.is_set() are numbered consecutively (two per page: one when the
page arrives, one after it is processed), and pauseAt gives the check index
from which the externally set flag is observed; once set it stays set.
pauseAt none means the flag is never set during the run. -/
def pauseFlag (pauseAt : Option Nat) (checkIdx : Nat) : Bool :=
  match pauseAt with
  | none => false
  | some k => k ≤ checkIdx

/-- Page loop of TrainingManager.stream: for each arriving page, first
observe the pause flag (breaking before processing when set), otherwise
record the total estimate from the page meta, count the fetched
transactions, process the page, observe the pause flag again (breaking
after the in-flight page completed when set), and otherwise emit a
processing event. -/
def streamLoop (pauseAt : Option Nat) (totalMeta : Nat) :
    Nat → StreamState → List (List TxData) → StreamState
  | _, st, [] => st
  | checkIdx, st, page :: rest =>
    if pauseFlag pauseAt checkIdx then { st with pauseRequested := true }
    else
      let totalEstimate := if st.totalEstimate = 0 then totalMeta else st.totalEstimate
      let totalFetched := st.totalFetched + page.length
      let out := processTrainingPage st.service st.seenIds page
      let st2 : StreamState :=
        { st with
          trainedCount := st.trainedCount + out.trained,
          skippedCount := st.skippedCount + out.skippedUncategorized,
          skippedDuplicate := st.skippedDuplicate + out.skippedDuplicate,
          totalFetched := totalFetched, totalEstimate := totalEstimate,
          service := out.service, seenIds := out.seenIds }
      if pauseFlag pauseAt (checkIdx + 1) then { st2 with pauseRequested := true }
      else
        let ev : StreamEvent :=
          { stage := "processing", trained := st2.trainedCount,
            skipped := st2.skippedCount, fetched := st2.totalFetched }
        streamLoop pauseAt totalMeta (checkIdx + 2)
          { st2 with events := st2.events ++ [ev] } rest

/-- Final result of one TrainingManager.stream run: the emitted events, the
terminal stage, the final counters and the threaded cascade/seen-id state. -/
structure StreamOutcome where
  events : List StreamEvent
  finalStage : String
  trained : Nat
  skipped : Nat
  fetched : Nat
  service : CategorizerService
  seenIds : List String
  deriving Repr, DecidableEq

/-- TrainingManager.stream over the pages yielded by the ledger
collaborator: emit the start event, run the page loop under the pause
scheduling model, then emit the terminal paused event (when the pause flag
was observed) or the complete event. -/
def stream (pauseAt : Option Nat) (totalMeta : Nat)
    (service : CategorizerService) (seenIds : List String)
    (pages : List (List TxData)) : StreamOutcome :=
  let startEv : StreamEvent := { stage := "start" }
  let st0 : StreamState :=
    { service := service, seenIds := seenIds, events := [startEv] }
  let st := streamLoop pauseAt totalMeta 0 st0 pages
  if st.pauseRequested then
    let ev : StreamEvent :=
      { stage := "paused", trained := st.trainedCount,
        skipped := st.skippedCount, fetched := st.totalFetched }
    { events := st.events ++ [ev], finalStage := "paused",
      trained := st.trainedCount, skipped := st.skippedCount,
      fetched := st.totalFetched, service := st.service, seenIds := st.seenIds }
  else
    let ev : StreamEvent :=
      { stage := "complete", trained := st.trainedCount,
        skipped := st.skippedCount, fetched := st.totalFetched }
    { events := st.events ++ [ev], finalStage := "complete",
      trained := st.trainedCount, skipped := st.skippedCount,
      fetched := st.totalFetched, service := st.service, seenIds := st.seenIds }

/-! Theorems. Helper lemmas come first, then one theorem per claim (with a
witness or counterexample where required). -/

lemma isValid_some_mem {V : List String} {name : String}
    (h : isValidCategory (some V) name = true) : name ∈ V := by
  simpa [isValidCategory] using h

lemma fuzzyClassify_inv {m : MemoryMatcher} {scorer : String → String → Rat}
    {tx : Transaction} {V : Option (List String)} {r : CategorizationResult}
    (h : m.fuzzyClassify scorer tx V = some r) :
    r.source = "memory_fuzzy" ∧ isValidCategory V r.category.name = true := by
  unfold MemoryMatcher.fuzzyClassify at h
  split at h
  · exact absurd h (by simp)
  · split at h
    · split at h
      · split at h
        · cases h
          refine ⟨rfl, ?_⟩
          assumption
        · exact absurd h (by simp)
      · exact absurd h (by simp)
    · exact absurd h (by simp)

lemma memory_classify_inv {m : MemoryMatcher} {scorer : String → String → Rat}
    {tx : Transaction} {V : Option (List String)} {r : CategorizationResult}
    (h : m.classify scorer tx V = some r) :
    (r.source = "memory_exact" ∨ r.source = "memory_fuzzy") ∧
    isValidCategory V r.category.name = true := by
  unfold MemoryMatcher.classify at h
  split at h
  · exact absurd h (by simp)
  · split at h
    · split at h
      · cases h
        refine ⟨Or.inl rfl, ?_⟩
        assumption
      · have := fuzzyClassify_inv h
        exact ⟨Or.inr this.1, this.2⟩
    · have := fuzzyClassify_inv h
      exact ⟨Or.inr this.1, this.2⟩

lemma tfidf_classify_inv {c : TfidfClassifier}
    {predictProba : String → Option (String × Rat)} {tx : Transaction}
    {V : Option (List String)} {r : CategorizationResult}
    (h : c.classify predictProba tx V = some r) :
    r.source = "tfidf" ∧ isValidCategory V r.category.name = true ∧
    c.is_fitted = true := by
  unfold TfidfClassifier.classify at h
  split at h
  · exact absurd h (by simp)
  next hfit =>
    have hfit2 : c.is_fitted = true := by
      revert hfit
      cases c.is_fitted <;> simp
    split at h
    · exact absurd h (by simp)
    · split at h
      · split at h
        · cases h
          exact ⟨rfl, by assumption, hfit2⟩
        · exact absurd h (by simp)
      · exact absurd h (by simp)

lemma llm_classify_inv {outputText : Option String} {tx : Transaction}
    {V : List String} {r : CategorizationResult}
    (hV : V ≠ [])
    (h : LLMClassifier.classify outputText tx (some V) = some r) :
    r.source = "llm" ∧ r.category.name ∈ V := by
  cases outputText with
  | none => simp [LLMClassifier.classify] at h
  | some raw =>
    simp only [LLMClassifier.classify] at h
    by_cases hcond : (V.isEmpty || V.contains raw.trim) = true
    · rw [if_pos hcond] at h
      cases h
      refine ⟨rfl, ?_⟩
      rcases Bool.or_eq_true_iff.mp hcond with hemp | hmem
      · exact absurd (List.isEmpty_iff.mp hemp) hV
      · simpa using hmem
    · rw [if_neg hcond] at h
      exact absurd h (by simp)

lemma llm_classify_source {outputText : Option String} {tx : Transaction}
    {V : Option (List String)} {r : CategorizationResult}
    (h : LLMClassifier.classify outputText tx V = some r) : r.source = "llm" := by
  cases outputText with
  | none => simp [LLMClassifier.classify] at h
  | some raw =>
    cases V with
    | none =>
      simp only [LLMClassifier.classify] at h
      cases h
      rfl
    | some v =>
      simp only [LLMClassifier.classify] at h
      split at h
      · cases h
        rfl
      · exact absurd h (by simp)

/-- Claim C1: with a non-empty valid-category list supplied, every result
returned by any strategy (memory matcher, tfidf classifier, llm classifier)
or by the cascade has its category name in the list; a candidate category
outside the list is never returned — the call answers none or an in-set
result instead. -/
theorem restriction_enforcement (scorer : String → String → Rat)
    (predictProba : String → Option (String × Rat)) (llmOutput : Option String)
    (m : MemoryMatcher) (c : TfidfClassifier) (s : CategorizerService)
    (tx : Transaction) (V : List String) (r : CategorizationResult)
    (hV : V ≠ []) :
    (m.classify scorer tx (some V) = some r → r.category.name ∈ V) ∧
    (c.classify predictProba tx (some V) = some r → r.category.name ∈ V) ∧
    (LLMClassifier.classify llmOutput tx (some V) = some r → r.category.name ∈ V) ∧
    (s.categorize scorer predictProba llmOutput tx (some V) = some r →
      r.category.name ∈ V) := by
  refine ⟨?_, ?_, ?_, ?_⟩
  · intro h
    exact isValid_some_mem (memory_classify_inv h).2
  · intro h
    exact isValid_some_mem (tfidf_classify_inv h).2.1
  · intro h
    exact (llm_classify_inv hV h).2
  · intro h
    unfold CategorizerService.categorize at h
    split at h
    next result heq =>
      cases h
      exact isValid_some_mem (memory_classify_inv heq).2
    next heq =>
      split at h
      next result2 heq2 =>
        cases h
        exact isValid_some_mem (tfidf_classify_inv heq2).2.1
      next heq2 =>
        split at h
        · exact (llm_classify_inv hV h).2
        · exact absurd h (by simp)

/-- Witness for restriction_enforcement at a concrete memory hit. -/
theorem restriction_enforcement_witness :
    ({ category := { name := "Transport" }, confidence := 1,
       source := "memory_exact" } : CategorizationResult).category.name ∈
      ["Transport"] :=
  (restriction_enforcement (fun _ _ => 0) (fun _ => none) none
      { memory := [("Uber Ride", "Transport")] } {} {}
      { description := "Uber Ride" } ["Transport"] _ (by decide)).1 (by decide)

/-- Claim C3: the cascade tries memory matcher, then tfidf classifier, then
llm classifier, in that fixed order, and returns the first non-none result:
a memory answer is always the returned result; the tfidf answer is returned
exactly when memory abstains and tfidf answers; the llm strategy decides
the outcome only when both predecessors abstain. -/
theorem cascade_priority (scorer : String → String → Rat)
    (predictProba : String → Option (String × Rat)) (llmOutput : Option String)
    (s : CategorizerService) (tx : Transaction) (V : Option (List String))
    (r : CategorizationResult) :
    (s.memory.classify scorer tx V = some r →
      s.categorize scorer predictProba llmOutput tx V = some r) ∧
    (s.memory.classify scorer tx V = none →
      s.tfidf.classify predictProba tx V = some r →
      s.categorize scorer predictProba llmOutput tx V = some r) ∧
    (s.memory.classify scorer tx V = none →
      s.tfidf.classify predictProba tx V = none →
      s.categorize scorer predictProba llmOutput tx V =
        if s.llmEnabled then LLMClassifier.classify llmOutput tx V else none) := by
  refine ⟨?_, ?_, ?_⟩
  · intro h1
    simp [CategorizerService.categorize, h1]
  · intro h1 h2
    simp [CategorizerService.categorize, h1, h2]
  · intro h1 h2
    simp [CategorizerService.categorize, h1, h2]

/-- Witness for cascade_priority: a concrete memory hit is the cascade
answer. -/
theorem cascade_priority_witness :
    ({ memory := { memory := [("Uber Ride", "Transport")] } } :
        CategorizerService).categorize (fun _ _ => 0) (fun _ => none) none
      { description := "Uber Ride" } none =
      some { category := { name := "Transport" }, confidence := 1,
             source := "memory_exact" } :=
  (cascade_priority (fun _ _ => 0) (fun _ => none) none
      { memory := { memory := [("Uber Ride", "Transport")] } }
      { description := "Uber Ride" } none _).1 (by decide)

lemma memLookup_memUpdate (memory : List (String × String)) (key val : String) :
    memLookup (memUpdate memory key val) key = some val := by
  induction memory with
  | nil => simp [memUpdate, memLookup]
  | cons kv rest ih =>
    obtain ⟨k, v⟩ := kv
    by_cases hk : k = key
    · subst hk
      simp [memUpdate, memLookup]
    · simp [memUpdate, memLookup, hk, ih]

lemma memUpdate_ne_nil (memory : List (String × String)) (key val : String) :
    memUpdate memory key val ≠ [] := by
  cases memory with
  | nil => simp [memUpdate]
  | cons kv rest =>
    obtain ⟨k, v⟩ := kv
    by_cases hk : k = key <;> simp [memUpdate, hk]

/-- Claim C9: after learn(T, C) the memory matcher classifies T, with no
restriction, as category C with confidence exactly 1 and source
memory_exact — for every prior memory state and every fuzzy scorer. -/
theorem memory_exact_roundtrip (m : MemoryMatcher) (scorer : String → String → Rat)
    (tx : Transaction) (cat : Category) :
    (m.learn tx cat).classify scorer tx none =
      some { category := { name := cat.name }, confidence := 1,
             source := "memory_exact" } := by
  unfold MemoryMatcher.learn MemoryMatcher.classify
  simp [List.isEmpty_iff, memUpdate_ne_nil, memLookup_memUpdate, isValidCategory]

/-- Claim C4 counterexample: a fitted text classifier returns the source
tag "tfidf", not the tag "text_model" stated in the claim. -/
theorem source_tag_counterexample :
    TfidfClassifier.classify
        { examples := ["a", "b"], labels := ["A", "B"], is_fitted := true }
        (fun _ => some ("A", 9/10)) { description := "x" } none =
      some { category := { name := "A" }, confidence := 9/10,
             source := "tfidf" } ∧
    "tfidf" ≠ "text_model" :=
  ⟨by norm_num [TfidfClassifier.classify, isValidCategory], by decide⟩

/-- Claim C4 amended: every result carries a source tag drawn from
{memory_exact, memory_fuzzy, tfidf, llm}: memory results are tagged
memory_exact (exact path) or memory_fuzzy (fuzzy path), text-classifier
results tfidf, and llm results llm. -/
theorem source_tags_amended (scorer : String → String → Rat)
    (predictProba : String → Option (String × Rat)) (llmOutput : Option String)
    (m : MemoryMatcher) (c : TfidfClassifier) (s : CategorizerService)
    (tx : Transaction) (V : Option (List String)) (r : CategorizationResult) :
    (m.classify scorer tx V = some r →
      r.source = "memory_exact" ∨ r.source = "memory_fuzzy") ∧
    (c.classify predictProba tx V = some r → r.source = "tfidf") ∧
    (LLMClassifier.classify llmOutput tx V = some r → r.source = "llm") ∧
    (s.categorize scorer predictProba llmOutput tx V = some r →
      r.source ∈ ["memory_exact", "memory_fuzzy", "tfidf", "llm"]) := by
  refine ⟨?_, ?_, ?_, ?_⟩
  · intro h
    exact (memory_classify_inv h).1
  · intro h
    exact (tfidf_classify_inv h).1
  · intro h
    exact llm_classify_source h
  · intro h
    unfold CategorizerService.categorize at h
    split at h
    next result heq =>
      cases h
      rcases (memory_classify_inv heq).1 with h1 | h1 <;> simp [h1]
    next heq =>
      split at h
      next result2 heq2 =>
        cases h
        simp [(tfidf_classify_inv heq2).1]
      next heq2 =>
        split at h
        · simp [llm_classify_source h]
        · exact absurd h (by simp)

/-- Witness for source_tags_amended at a concrete fitted text classifier. -/
theorem source_tags_amended_witness :
    ({ category := { name := "A" }, confidence := 9/10,
       source := "tfidf" } : CategorizationResult).source = "tfidf" :=
  (source_tags_amended (fun _ _ => 0) (fun _ => some ("A", 9/10)) none
      {} { examples := ["a", "b"], labels := ["A", "B"], is_fitted := true } {}
      { description := "x" } none _).2.1
    (by norm_num [TfidfClassifier.classify, isValidCategory])

lemma auto_approval_reason_disabled {threshold : Rat} (p : CategorizationResult)
    (h : threshold ≤ 0) : (auto_approval_reason threshold p).1 = some "disabled" := by
  simp [auto_approval_reason, h]

lemma auto_approval_reason_low {threshold : Rat} {p : CategorizationResult}
    (h0 : 0 < threshold) (h1 : p.confidence < threshold) :
    (auto_approval_reason threshold p).1 = some "low_confidence" := by
  simp [auto_approval_reason, not_le.mpr h0, h1]

lemma auto_approval_reason_eligible {threshold : Rat} {p : CategorizationResult}
    (h0 : 0 < threshold) (h1 : threshold ≤ p.confidence) :
    (auto_approval_reason threshold p).1 = none := by
  simp [auto_approval_reason, not_le.mpr h0, not_lt.mpr h1]

/-- Claim C2: the auto-approval decision is disabled whenever the threshold
is at most 0; with a positive threshold, a confidence below it yields
low_confidence with no ledger write and no change to the cascade; otherwise
the ledger write is attempted and the cascade is taught the pair iff the
write reports success — a failed write leaves the cascade state unchanged. -/
theorem auto_approval_policy (service : CategorizerService) (writeSucceeds : Bool)
    (tx : Transaction) (prediction : CategorizationResult)
    (existingTags autoTags : List String) (includeExisting : Bool)
    (threshold : Rat) :
    (threshold ≤ 0 →
      evaluate_auto_approval service writeSucceeds tx prediction existingTags
          autoTags includeExisting threshold =
        { success := false, reason := "disabled", writeAttempted := false,
          tagsPayload := none, service := service }) ∧
    (0 < threshold → prediction.confidence < threshold →
      evaluate_auto_approval service writeSucceeds tx prediction existingTags
          autoTags includeExisting threshold =
        { success := false, reason := "low_confidence", writeAttempted := false,
          tagsPayload := none, service := service }) ∧
    (0 < threshold → threshold ≤ prediction.confidence →
      (evaluate_auto_approval service writeSucceeds tx prediction existingTags
          autoTags includeExisting threshold).writeAttempted = true ∧
      (evaluate_auto_approval service writeSucceeds tx prediction existingTags
          autoTags includeExisting threshold).success = writeSucceeds ∧
      (evaluate_auto_approval service writeSucceeds tx prediction existingTags
          autoTags includeExisting threshold).service =
        (if writeSucceeds then service.learn tx prediction.category
         else service)) := by
  refine ⟨?_, ?_, ?_⟩
  · intro h
    simp [evaluate_auto_approval, auto_approval_reason_disabled prediction h]
  · intro h0 h1
    simp [evaluate_auto_approval, auto_approval_reason_low h0 h1]
  · intro h0 h1
    simp [evaluate_auto_approval, auto_approval_reason_eligible h0 h1,
      apply_auto_approval]

/-- Witness for auto_approval_policy at concrete thresholds 0 and 1/2. -/
theorem auto_approval_policy_witness :
    evaluate_auto_approval {} true { description := "d" }
        { category := { name := "A" }, confidence := 1, source := "llm" }
        [] [] false 0 =
      { success := false, reason := "disabled", writeAttempted := false,
        tagsPayload := none, service := {} } ∧
    evaluate_auto_approval {} true { description := "d" }
        { category := { name := "A" }, confidence := 1/4, source := "llm" }
        [] [] false (1/2) =
      { success := false, reason := "low_confidence", writeAttempted := false,
        tagsPayload := none, service := {} } ∧
    (evaluate_auto_approval {} false { description := "d" }
        { category := { name := "A" }, confidence := 3/4, source := "llm" }
        [] [] false (1/2)).service = ({} : CategorizerService) :=
  ⟨(auto_approval_policy {} true { description := "d" }
        { category := { name := "A" }, confidence := 1, source := "llm" }
        [] [] false 0).1 (by norm_num),
   (auto_approval_policy {} true { description := "d" }
        { category := { name := "A" }, confidence := 1/4, source := "llm" }
        [] [] false (1/2)).2.1 (by norm_num) (by norm_num),
   by
     have h := ((auto_approval_policy {} false { description := "d" }
         { category := { name := "A" }, confidence := 3/4, source := "llm" }
         [] [] false (1/2)).2.2 (by norm_num) (by norm_num)).2.2
     simpa using h⟩

/-- Claim C5 counterexample: with a run active, the clear-models route
still invokes reset_state, reports success and empties the seen-id set —
no conflict is signalled and the dedup state is mutated mid-run. -/
theorem reset_guard_counterexample :
    ({ active := true, seenIds := ["1"],
       status := { stage := "processing", active := true } } :
        TrainingManager).active = true ∧
    (clear_models_route {}
        { active := true, seenIds := ["1"],
          status := { stage := "processing", active := true } }).2.2 =
      "success" ∧
    (clear_models_route {}
        { active := true, seenIds := ["1"],
          status := { stage := "processing", active := true } }).2.1.seenIds =
      [] :=
  ⟨rfl, rfl, rfl⟩

/-- Claim C5 amended: while a run is active the train-reset route, which
calls clear_seen_ids, is rejected with a conflict and no state is mutated;
it succeeds, clearing the seen-id set, exactly when no run is active.
reset_state itself performs no active-run check and the clear-models route
invokes it unconditionally, clearing the seen ids and resetting the status
even while a run is active. -/
theorem reset_guard_amended (service : CategorizerService) (tm : TrainingManager) :
    (tm.active = true →
      reset_training_state tm = Except.error "Training in progress") ∧
    (tm.active = false →
      reset_training_state tm =
        Except.ok ({ tm with seenIds := [] }, tm.seenIds.length)) ∧
    (clear_models_route service tm).2.1 = (tm.reset_state).1 ∧
    (tm.reset_state).1.seenIds = [] := by
  refine ⟨?_, ?_, rfl, rfl⟩
  · intro h
    simp [reset_training_state, h]
  · intro h
    simp [reset_training_state, h, TrainingManager.clear_seen_ids]

/-- Witness for reset_guard_amended on an active and an idle manager. -/
theorem reset_guard_amended_witness :
    reset_training_state { active := true, seenIds := ["1"] } =
      Except.error "Training in progress" ∧
    reset_training_state { active := false, seenIds := ["1"] } =
      Except.ok
        (({ active := false, seenIds := [] } : TrainingManager), 1) :=
  ⟨(reset_guard_amended {} { active := true, seenIds := ["1"] }).1 rfl,
   (reset_guard_amended {} { active := false, seenIds := ["1"] }).2.1 rfl⟩

/-- Claim C10: a transaction whose external id is missing is never added to
the seen-id set even when it is successfully trained, so on a run over the
same data with any prior seen-id state it is trained again (counted as
trained, not skipped as duplicate). -/
theorem idless_transaction_retrained (service : CategorizerService)
    (seen : List String) (t : TxData)
    (hid : t.txId = none) (hcat : truthyOpt t.categoryName = true) :
    (processTrainingPage service seen [t]).seenIds = seen ∧
    (processTrainingPage service seen [t]).trained = 1 ∧
    (processTrainingPage service seen [t]).skippedDuplicate = 0 := by
  have hnone : truthyOpt none = false := rfl
  simp [processTrainingPage, processTrainingStep, hid, hcat, hnone]

/-- Witness for idless_transaction_retrained: an id-less categorized
transaction is retrained against a non-trivial seen-id set. -/
theorem idless_transaction_retrained_witness :
    (processTrainingPage {} ["42"]
        [{ txId := none, categoryName := some "Food",
           transaction := { description := "d" } }]).trained = 1 :=
  (idless_transaction_retrained {} ["42"]
      { txId := none, categoryName := some "Food",
        transaction := { description := "d" } } rfl (by decide)).2.1

lemma dedup_length_le_one {l : List String} {a : String} (h : ∀ x ∈ l, x = a) :
    l.dedup.length ≤ 1 := by
  rcases hd : l.dedup with _ | ⟨x, _ | ⟨y, rest⟩⟩
  · simp
  · simp
  · exfalso
    have nd : (x :: y :: rest).Nodup := hd ▸ l.nodup_dedup
    have hx : x ∈ l := List.mem_dedup.mp (by rw [hd]; exact List.mem_cons_self x _)
    have hy : y ∈ l := List.mem_dedup.mp (by rw [hd]; simp)
    rcases List.nodup_cons.mp nd with ⟨hxnotin, _⟩
    have hxy : x = y := (h x hx).trans (h y hy).symm
    exact hxnotin (hxy ▸ List.mem_cons_self y rest)

lemma learn_labels (c : TfidfClassifier) (tx : Transaction) (cat : Category) :
    (c.learn tx cat).labels = c.labels ++ [cat.name] := by
  by_cases h : 2 ≤ (c.labels ++ [cat.name]).dedup.length <;>
    simp [TfidfClassifier.learn, h]

lemma learn_threshold (c : TfidfClassifier) (tx : Transaction) (cat : Category) :
    (c.learn tx cat).threshold = c.threshold := by
  by_cases h : 2 ≤ (c.labels ++ [cat.name]).dedup.length <;>
    simp [TfidfClassifier.learn, h]

lemma learn_unfitted {c : TfidfClassifier} {tx : Transaction} {cat : Category}
    {label : String} (hf : c.is_fitted = false)
    (hall : ∀ x ∈ c.labels ++ [cat.name], x = label) :
    (c.learn tx cat).is_fitted = false := by
  by_cases h : 2 ≤ (c.labels ++ [cat.name]).dedup.length
  · exfalso
    have := dedup_length_le_one hall
    omega
  · simp [TfidfClassifier.learn, h, hf]

lemma classify_unfitted {c : TfidfClassifier} (hf : c.is_fitted = false)
    (predictProba : String → Option (String × Rat)) (tx : Transaction)
    (V : Option (List String)) : c.classify predictProba tx V = none := by
  unfold TfidfClassifier.classify
  simp [hf]

lemma foldl_learn_single_label (pairs : List (Transaction × Category))
    (label : String) : ∀ (c : TfidfClassifier),
    (∀ p ∈ pairs, (Prod.snd p).name = label) →
    (∀ x ∈ c.labels, x = label) → c.is_fitted = false →
    (pairs.foldl (fun (acc : TfidfClassifier) p => acc.learn p.1 p.2) c).is_fitted =
      false ∧
    ∀ x ∈ (pairs.foldl (fun (acc : TfidfClassifier) p => acc.learn p.1 p.2) c).labels,
      x = label := by
  induction pairs with
  | nil =>
    intro c _ hl hf
    exact ⟨hf, hl⟩
  | cons p rest ih =>
    intro c hsame hl hf
    have hall : ∀ x ∈ c.labels ++ [p.2.name], x = label := by
      intro x hx
      rcases List.mem_append.mp hx with hx | hx
      · exact hl x hx
      · have : x = p.2.name := List.mem_singleton.mp hx
        exact this.trans (hsame p (List.mem_cons_self p rest))
    refine ih (c.learn p.1 p.2) (fun q hq => hsame q (List.mem_cons_of_mem p hq))
      ?_ (learn_unfitted hf hall)
    rw [learn_labels]
    exact hall

/-- Claim C8: starting from an untrained text classifier, while every learn
call so far has carried one single distinct label the classifier stays
unfitted and classify returns none for every oracle, transaction and
restriction list; after a second distinct label is taught a result can be
returned. -/
theorem tfidf_needs_two_labels (pairs : List (Transaction × Category))
    (label : String) (hsame : ∀ p ∈ pairs, (Prod.snd p).name = label) :
    ((pairs.foldl (fun (acc : TfidfClassifier) p => acc.learn p.1 p.2)
        {}).is_fitted = false ∧
      ∀ (predictProba : String → Option (String × Rat)) (tx : Transaction)
        (V : Option (List String)),
        (pairs.foldl (fun (acc : TfidfClassifier) p => acc.learn p.1 p.2)
            ({} : TfidfClassifier)).classify predictProba tx V = none) ∧
    TfidfClassifier.classify
        (TfidfClassifier.learn
          (TfidfClassifier.learn {} { description := "a" } { name := "A" })
          { description := "b" } { name := "B" })
        (fun _ => some ("A", 1)) { description := "a" } none =
      some { category := { name := "A" }, confidence := 1,
             source := "tfidf" } := by
  have hmain := foldl_learn_single_label pairs label ({} : TfidfClassifier)
    hsame (fun x hx => absurd hx (List.not_mem_nil x)) rfl
  refine ⟨⟨hmain.1,
    fun predictProba tx V => classify_unfitted hmain.1 predictProba tx V⟩, ?_⟩
  have hfit : (TfidfClassifier.learn
      (TfidfClassifier.learn {} { description := "a" } { name := "A" })
      { description := "b" } { name := "B" }).is_fitted = true := by decide
  have hth : (TfidfClassifier.learn
      (TfidfClassifier.learn {} { description := "a" } { name := "A" })
      { description := "b" } { name := "B" }).threshold = 1/2 := by
    rw [learn_threshold, learn_threshold]
  norm_num [TfidfClassifier.classify, hfit, hth, isValidCategory]

/-- Witness for tfidf_needs_two_labels: two same-label teaches leave the
classifier abstaining. -/
theorem tfidf_needs_two_labels_witness :
    (([({ description := "x" }, { name := "A" }),
       ({ description := "y" }, { name := "A" })] :
        List (Transaction × Category)).foldl
      (fun (acc : TfidfClassifier) p => acc.learn p.1 p.2)
      ({} : TfidfClassifier)).classify
      (fun _ => some ("A", 1)) { description := "x" } none = none :=
  (tfidf_needs_two_labels
      [({ description := "x" }, { name := "A" }),
       ({ description := "y" }, { name := "A" })] "A" (by decide)).1.2
    (fun _ => some ("A", 1)) { description := "x" } none

lemma mem_insertId {seen : List String} {x : String} (i : String)
    (hx : x ∈ seen) : x ∈ insertId seen i := by
  unfold insertId
  split
  · exact hx
  · exact List.mem_append_left _ hx

lemma insertId_self (seen : List String) (i : String) : i ∈ insertId seen i := by
  unfold insertId
  split
  next h => simpa using h
  · exact List.mem_append_right _ (by simp)

lemma step_seen_mono {acc : PageOutcome} (t : TxData) {x : String}
    (hx : x ∈ acc.seenIds) : x ∈ (processTrainingStep acc t).seenIds := by
  unfold processTrainingStep
  split
  · exact hx
  · split
    · exact hx
    · dsimp only
      split
      · exact mem_insertId _ hx
      · exact hx

lemma foldl_step_seen_mono (page : List TxData) : ∀ (acc : PageOutcome) {x : String},
    x ∈ acc.seenIds → x ∈ (page.foldl processTrainingStep acc).seenIds := by
  induction page with
  | nil =>
    intro acc x hx
    exact hx
  | cons t rest ih =>
    intro acc x hx
    exact ih _ (step_seen_mono t hx)

lemma foldl_step_records (page : List TxData) : ∀ (acc : PageOutcome) (t : TxData),
    t ∈ page → truthyOpt t.categoryName = true → truthyOpt t.txId = true →
    (t.txId.getD "") ∈ (page.foldl processTrainingStep acc).seenIds := by
  induction page with
  | nil =>
    intro acc t ht
    exact absurd ht (List.not_mem_nil t)
  | cons u rest ih =>
    intro acc t ht hcat hid
    rcases List.mem_cons.mp ht with rfl | ht2
    · apply foldl_step_seen_mono rest
      unfold processTrainingStep
      split
      next hdup =>
        have := (Bool.and_eq_true _ _).mp hdup
        simpa using this.2
      · split
        next hnocat =>
          exfalso
          rw [hcat] at hnocat
          simp at hnocat
        · dsimp only
          exact insertId_self _ _
    · exact ih _ t ht2 hcat hid

lemma bulk_seen_mono (pages : List (List TxData)) : ∀ (acc : BulkOutcome) {x : String},
    x ∈ acc.seenIds → x ∈ (pages.foldl bulkStep acc).seenIds := by
  induction pages with
  | nil =>
    intro acc x hx
    exact hx
  | cons page rest ih =>
    intro acc x hx
    apply ih
    show x ∈ (processTrainingPage acc.service acc.seenIds page).seenIds
    exact foldl_step_seen_mono page _ hx

lemma bulk_records (pages : List (List TxData)) : ∀ (acc : BulkOutcome)
    (page : List TxData) (t : TxData), page ∈ pages → t ∈ page →
    truthyOpt t.categoryName = true → truthyOpt t.txId = true →
    (t.txId.getD "") ∈ (pages.foldl bulkStep acc).seenIds := by
  induction pages with
  | nil =>
    intro acc page t hpage
    exact absurd hpage (List.not_mem_nil page)
  | cons q rest ih =>
    intro acc page t hpage ht hcat hid
    rcases List.mem_cons.mp hpage with rfl | hp2
    · apply bulk_seen_mono rest
      show (t.txId.getD "") ∈ (processTrainingPage acc.service acc.seenIds page).seenIds
      exact foldl_step_records page _ t ht hcat hid
    · exact ih _ page t hp2 ht hcat hid

lemma foldl_step_no_train (page : List TxData) : ∀ (acc : PageOutcome),
    (∀ t ∈ page, truthyOpt t.categoryName = true →
      truthyOpt t.txId = true ∧ (t.txId.getD "") ∈ acc.seenIds) →
    (page.foldl processTrainingStep acc).trained = acc.trained := by
  induction page with
  | nil =>
    intro acc _
    rfl
  | cons t rest ih =>
    intro acc h
    have hacc : (processTrainingStep acc t).trained = acc.trained := by
      unfold processTrainingStep
      split
      · rfl
      next hdup =>
        split
        · rfl
        next hcatn =>
          exfalso
          have hcat : truthyOpt t.categoryName = true := by
            revert hcatn
            cases truthyOpt t.categoryName <;> simp
          rcases h t (List.mem_cons_self t rest) hcat with ⟨hid, hmem⟩
          apply hdup
          rw [hid]
          simpa using hmem
    calc ((t :: rest).foldl processTrainingStep acc).trained
        = (rest.foldl processTrainingStep (processTrainingStep acc t)).trained := rfl
      _ = (processTrainingStep acc t).trained := by
          apply ih
          intro u hu hcat
          rcases h u (List.mem_cons_of_mem t hu) hcat with ⟨hid, hmem⟩
          exact ⟨hid, step_seen_mono t hmem⟩
      _ = acc.trained := hacc

lemma foldl_bulk_no_train (pages : List (List TxData)) : ∀ (acc : BulkOutcome),
    (∀ page ∈ pages, ∀ t ∈ page, truthyOpt t.categoryName = true →
      truthyOpt t.txId = true ∧ (t.txId.getD "") ∈ acc.seenIds) →
    (pages.foldl bulkStep acc).trained = acc.trained := by
  induction pages with
  | nil =>
    intro acc _
    rfl
  | cons page rest ih =>
    intro acc h
    have hpage0 : (processTrainingPage acc.service acc.seenIds page).trained = 0 := by
      apply foldl_step_no_train
      intro t ht hcat
      exact h page (List.mem_cons_self page rest) t ht hcat
    calc ((page :: rest).foldl bulkStep acc).trained
        = (rest.foldl bulkStep (bulkStep acc page)).trained := rfl
      _ = (bulkStep acc page).trained := by
          apply ih
          intro q hq t ht hcat
          rcases h q (List.mem_cons_of_mem page hq) t ht hcat with ⟨hid, hmem⟩
          refine ⟨hid, ?_⟩
          show (t.txId.getD "") ∈
            (processTrainingPage acc.service acc.seenIds page).seenIds
          exact foldl_step_seen_mono page _ hmem
      _ = acc.trained := by
          show acc.trained +
            (processTrainingPage acc.service acc.seenIds page).trained = acc.trained
          rw [hpage0]
          omega

/-- Claim C6 counterexample: over a paged dataset holding one categorized
transaction without an external id, the second train_bulk run over the same
pages trains one example rather than zero. -/
theorem train_bulk_idempotence_counterexample :
    (train_bulk
        (train_bulk {} []
          [[{ txId := none, categoryName := some "Food",
              transaction := { description := "d" } }]]).service
        (train_bulk {} []
          [[{ txId := none, categoryName := some "Food",
              transaction := { description := "d" } }]]).seenIds
        [[{ txId := none, categoryName := some "Food",
            transaction := { description := "d" } }]]).trained = 1 := by
  decide

/-- Claim C6 amended: over a paged dataset in which every categorized
transaction carries a truthy external id, a second train_bulk run over the
same pages without clearing the seen-id set trains zero new examples (every
such transaction is skipped as a duplicate). -/
theorem train_bulk_second_run_zero (service : CategorizerService)
    (seenIds : List String) (pages : List (List TxData))
    (h : ∀ page ∈ pages, ∀ t ∈ page,
      truthyOpt t.categoryName = true → truthyOpt t.txId = true) :
    (train_bulk (train_bulk service seenIds pages).service
      (train_bulk service seenIds pages).seenIds pages).trained = 0 := by
  have hzero := foldl_bulk_no_train pages
    { trained := 0, skipped := 0, skippedDuplicate := 0, fetched := 0,
      service := (train_bulk service seenIds pages).service,
      seenIds := (train_bulk service seenIds pages).seenIds }
    (by
      intro page hpage t ht hcat
      refine ⟨h page hpage t ht hcat, ?_⟩
      exact bulk_records pages
        { trained := 0, skipped := 0, skippedDuplicate := 0, fetched := 0,
          service := service, seenIds := seenIds } page t hpage ht hcat
        (h page hpage t ht hcat))
  exact hzero

/-- Witness for train_bulk_second_run_zero on a two-transaction dataset. -/
theorem train_bulk_second_run_zero_witness :
    (train_bulk
        (train_bulk {} []
          [[{ txId := some "1", categoryName := some "Food",
              transaction := { description := "d" } }],
           [{ txId := some "2", categoryName := none,
              transaction := { description := "e" } }]]).service
        (train_bulk {} []
          [[{ txId := some "1", categoryName := some "Food",
              transaction := { description := "d" } }],
           [{ txId := some "2", categoryName := none,
              transaction := { description := "e" } }]]).seenIds
        [[{ txId := some "1", categoryName := some "Food",
            transaction := { description := "d" } }],
         [{ txId := some "2", categoryName := none,
            transaction := { description := "e" } }]]).trained = 0 :=
  train_bulk_second_run_zero {} []
    [[{ txId := some "1", categoryName := some "Food",
        transaction := { description := "d" } }],
     [{ txId := some "2", categoryName := none,
        transaction := { description := "e" } }]] (by decide)

lemma bulkStep_trained (acc : BulkOutcome) (page : List TxData) :
    (bulkStep acc page).trained =
      acc.trained + (processTrainingPage acc.service acc.seenIds page).trained := rfl

lemma bulkStep_skipped (acc : BulkOutcome) (page : List TxData) :
    (bulkStep acc page).skipped =
      acc.skipped +
        (processTrainingPage acc.service acc.seenIds page).skippedUncategorized := rfl

lemma bulkStep_fetched (acc : BulkOutcome) (page : List TxData) :
    (bulkStep acc page).fetched = acc.fetched + page.length := rfl

lemma bulkStep_service (acc : BulkOutcome) (page : List TxData) :
    (bulkStep acc page).service =
      (processTrainingPage acc.service acc.seenIds page).service := rfl

lemma bulkStep_seenIds (acc : BulkOutcome) (page : List TxData) :
    (bulkStep acc page).seenIds =
      (processTrainingPage acc.service acc.seenIds page).seenIds := rfl

lemma foldl_bulkStep_spec (pages : List (List TxData)) : ∀ (acc : BulkOutcome),
    (pages.foldl bulkStep acc).trained =
      acc.trained + (train_bulk acc.service acc.seenIds pages).trained ∧
    (pages.foldl bulkStep acc).skipped =
      acc.skipped + (train_bulk acc.service acc.seenIds pages).skipped ∧
    (pages.foldl bulkStep acc).fetched =
      acc.fetched + (train_bulk acc.service acc.seenIds pages).fetched ∧
    (pages.foldl bulkStep acc).service =
      (train_bulk acc.service acc.seenIds pages).service ∧
    (pages.foldl bulkStep acc).seenIds =
      (train_bulk acc.service acc.seenIds pages).seenIds := by
  induction pages with
  | nil =>
    intro acc
    exact ⟨by simp [train_bulk], by simp [train_bulk], by simp [train_bulk],
      rfl, rfl⟩
  | cons page rest ih =>
    intro acc
    have h1 := ih (bulkStep acc page)
    have h2 := ih (bulkStep
      { trained := 0, skipped := 0, skippedDuplicate := 0, fetched := 0,
        service := acc.service, seenIds := acc.seenIds } page)
    simp only [bulkStep_trained, bulkStep_skipped, bulkStep_fetched,
      bulkStep_service, bulkStep_seenIds] at h1 h2
    refine ⟨?_, ?_, ?_, ?_, ?_⟩
    · show (rest.foldl bulkStep (bulkStep acc page)).trained =
        acc.trained + (rest.foldl bulkStep (bulkStep
          { trained := 0, skipped := 0, skippedDuplicate := 0, fetched := 0,
            service := acc.service, seenIds := acc.seenIds } page)).trained
      rw [h1.1, h2.1]
      omega
    · show (rest.foldl bulkStep (bulkStep acc page)).skipped =
        acc.skipped + (rest.foldl bulkStep (bulkStep
          { trained := 0, skipped := 0, skippedDuplicate := 0, fetched := 0,
            service := acc.service, seenIds := acc.seenIds } page)).skipped
      rw [h1.2.1, h2.2.1]
      omega
    · show (rest.foldl bulkStep (bulkStep acc page)).fetched =
        acc.fetched + (rest.foldl bulkStep (bulkStep
          { trained := 0, skipped := 0, skippedDuplicate := 0, fetched := 0,
            service := acc.service, seenIds := acc.seenIds } page)).fetched
      rw [h1.2.2.1, h2.2.2.1]
      omega
    · show (rest.foldl bulkStep (bulkStep acc page)).service =
        (rest.foldl bulkStep (bulkStep
          { trained := 0, skipped := 0, skippedDuplicate := 0, fetched := 0,
            service := acc.service, seenIds := acc.seenIds } page)).service
      rw [h1.2.2.2.1, h2.2.2.2.1]
    · show (rest.foldl bulkStep (bulkStep acc page)).seenIds =
        (rest.foldl bulkStep (bulkStep
          { trained := 0, skipped := 0, skippedDuplicate := 0, fetched := 0,
            service := acc.service, seenIds := acc.seenIds } page)).seenIds
      rw [h1.2.2.2.2, h2.2.2.2.2]

lemma train_bulk_cons (svc : CategorizerService) (seen : List String)
    (page : List TxData) (rest : List (List TxData)) :
    (train_bulk svc seen (page :: rest)).trained =
      (processTrainingPage svc seen page).trained +
        (train_bulk (processTrainingPage svc seen page).service
          (processTrainingPage svc seen page).seenIds rest).trained ∧
    (train_bulk svc seen (page :: rest)).skipped =
      (processTrainingPage svc seen page).skippedUncategorized +
        (train_bulk (processTrainingPage svc seen page).service
          (processTrainingPage svc seen page).seenIds rest).skipped ∧
    (train_bulk svc seen (page :: rest)).fetched =
      page.length +
        (train_bulk (processTrainingPage svc seen page).service
          (processTrainingPage svc seen page).seenIds rest).fetched := by
  have h := foldl_bulkStep_spec rest (bulkStep
    { trained := 0, skipped := 0, skippedDuplicate := 0, fetched := 0,
      service := svc, seenIds := seen } page)
  simp only [bulkStep_trained, bulkStep_skipped, bulkStep_fetched,
    bulkStep_service, bulkStep_seenIds] at h
  refine ⟨?_, ?_, ?_⟩
  · show (rest.foldl bulkStep (bulkStep
        { trained := 0, skipped := 0, skippedDuplicate := 0, fetched := 0,
          service := svc, seenIds := seen } page)).trained = _
    rw [h.1]
    simp
  · show (rest.foldl bulkStep (bulkStep
        { trained := 0, skipped := 0, skippedDuplicate := 0, fetched := 0,
          service := svc, seenIds := seen } page)).skipped = _
    rw [h.2.1]
    simp
  · show (rest.foldl bulkStep (bulkStep
        { trained := 0, skipped := 0, skippedDuplicate := 0, fetched := 0,
          service := svc, seenIds := seen } page)).fetched = _
    rw [h.2.2.1]
    simp

lemma pauseFlag_true {k c : Nat} (h : k ≤ c) : pauseFlag (some k) c = true := by
  simp only [pauseFlag, decide_eq_true_eq]
  omega

lemma pauseFlag_false {k c : Nat} (h : c < k) : pauseFlag (some k) c = false := by
  simp only [pauseFlag, decide_eq_false_iff_not]
  omega

lemma streamLoop_cons_pause_now {k c : Nat} (totalMeta : Nat) (st : StreamState)
    (page : List TxData) (rest : List (List TxData))
    (hA : pauseFlag (some k) c = true) :
    streamLoop (some k) totalMeta c st (page :: rest) =
      { st with pauseRequested := true } := by
  simp [streamLoop, hA]

lemma streamLoop_cons_pause_after {k c : Nat} (totalMeta : Nat) (st : StreamState)
    (page : List TxData) (rest : List (List TxData))
    (hA : pauseFlag (some k) c = false) (hB : pauseFlag (some k) (c + 1) = true) :
    streamLoop (some k) totalMeta c st (page :: rest) =
      { trainedCount := st.trainedCount +
          (processTrainingPage st.service st.seenIds page).trained,
        skippedCount := st.skippedCount +
          (processTrainingPage st.service st.seenIds page).skippedUncategorized,
        skippedDuplicate := st.skippedDuplicate +
          (processTrainingPage st.service st.seenIds page).skippedDuplicate,
        totalFetched := st.totalFetched + page.length,
        totalEstimate :=
          if st.totalEstimate = 0 then totalMeta else st.totalEstimate,
        pauseRequested := true,
        service := (processTrainingPage st.service st.seenIds page).service,
        seenIds := (processTrainingPage st.service st.seenIds page).seenIds,
        events := st.events } := by
  simp [streamLoop, hA, hB]

lemma streamLoop_cons_no_pause {k c : Nat} (totalMeta : Nat) (st : StreamState)
    (page : List TxData) (rest : List (List TxData))
    (hA : pauseFlag (some k) c = false) (hB : pauseFlag (some k) (c + 1) = false) :
    streamLoop (some k) totalMeta c st (page :: rest) =
      streamLoop (some k) totalMeta (c + 2)
        { trainedCount := st.trainedCount +
            (processTrainingPage st.service st.seenIds page).trained,
          skippedCount := st.skippedCount +
            (processTrainingPage st.service st.seenIds page).skippedUncategorized,
          skippedDuplicate := st.skippedDuplicate +
            (processTrainingPage st.service st.seenIds page).skippedDuplicate,
          totalFetched := st.totalFetched + page.length,
          totalEstimate :=
            if st.totalEstimate = 0 then totalMeta else st.totalEstimate,
          pauseRequested := st.pauseRequested,
          service := (processTrainingPage st.service st.seenIds page).service,
          seenIds := (processTrainingPage st.service st.seenIds page).seenIds,
          events := st.events ++
            [{ stage := "processing",
               trained := st.trainedCount +
                 (processTrainingPage st.service st.seenIds page).trained,
               skipped := st.skippedCount +
                 (processTrainingPage st.service st.seenIds page).skippedUncategorized,
               fetched := st.totalFetched + page.length }] } rest := by
  simp [streamLoop, hA, hB]

lemma streamLoop_paused_spec (pages : List (List TxData)) :
    ∀ (k c totalMeta : Nat) (st : StreamState), c ≤ k →
    k - c < 2 * pages.length →
    (streamLoop (some k) totalMeta c st pages).pauseRequested = true ∧
    (streamLoop (some k) totalMeta c st pages).trainedCount =
      st.trainedCount +
        (train_bulk st.service st.seenIds (pages.take ((k - c + 1) / 2))).trained ∧
    (streamLoop (some k) totalMeta c st pages).skippedCount =
      st.skippedCount +
        (train_bulk st.service st.seenIds (pages.take ((k - c + 1) / 2))).skipped ∧
    (streamLoop (some k) totalMeta c st pages).totalFetched =
      st.totalFetched +
        (train_bulk st.service st.seenIds (pages.take ((k - c + 1) / 2))).fetched := by
  induction pages with
  | nil =>
    intro k c totalMeta st hck hk
    simp at hk
  | cons page rest ih =>
    intro k c totalMeta st hck hk
    by_cases hkc : k ≤ c
    · have hp : (k - c + 1) / 2 = 0 := by omega
      rw [streamLoop_cons_pause_now totalMeta st page rest (pauseFlag_true hkc), hp]
      refine ⟨rfl, ?_, ?_, ?_⟩ <;> simp [train_bulk]
    · have hA : pauseFlag (some k) c = false := pauseFlag_false (by omega)
      by_cases hkc1 : k ≤ c + 1
      · have hp : (k - c + 1) / 2 = 1 := by omega
        rw [streamLoop_cons_pause_after totalMeta st page rest hA
          (pauseFlag_true hkc1), hp]
        refine ⟨rfl, ?_, ?_, ?_⟩ <;>
          simp [List.take_succ_cons, train_bulk, bulkStep_trained,
            bulkStep_skipped, bulkStep_fetched, bulkStep_service,
            bulkStep_seenIds]
      · have hB : pauseFlag (some k) (c + 1) = false := pauseFlag_false (by omega)
        have hrest : k - (c + 2) < 2 * rest.length := by
          simp only [List.length_cons] at hk
          omega
        rw [streamLoop_cons_no_pause totalMeta st page rest hA hB]
        obtain ⟨ih1, ih2, ih3, ih4⟩ :=
          ih k (c + 2) totalMeta
            { trainedCount := st.trainedCount +
                (processTrainingPage st.service st.seenIds page).trained,
              skippedCount := st.skippedCount +
                (processTrainingPage st.service st.seenIds page).skippedUncategorized,
              skippedDuplicate := st.skippedDuplicate +
                (processTrainingPage st.service st.seenIds page).skippedDuplicate,
              totalFetched := st.totalFetched + page.length,
              totalEstimate :=
                if st.totalEstimate = 0 then totalMeta else st.totalEstimate,
              pauseRequested := st.pauseRequested,
              service := (processTrainingPage st.service st.seenIds page).service,
              seenIds := (processTrainingPage st.service st.seenIds page).seenIds,
              events := st.events ++
                [{ stage := "processing",
                   trained := st.trainedCount +
                     (processTrainingPage st.service st.seenIds page).trained,
                   skipped := st.skippedCount +
                     (processTrainingPage st.service st.seenIds
                       page).skippedUncategorized,
                   fetched := st.totalFetched + page.length }] }
            (by omega) hrest
        dsimp only at ih2 ih3 ih4
        have hp : (k - c + 1) / 2 = (k - (c + 2) + 1) / 2 + 1 := by omega
        rw [hp, List.take_succ_cons]
        have hc := train_bulk_cons st.service st.seenIds page
          (rest.take ((k - (c + 2) + 1) / 2))
        refine ⟨ih1, ?_, ?_, ?_⟩
        · rw [ih2, hc.1]
          omega
        · rw [ih3, hc.2.1]
          omega
        · rw [ih4, hc.2.2]
          omega

/-- Claim C7: when the pause flag becomes observable at check index k during
a streamed run (two cooperative checks per page, so p = (k+1)/2 pages are
fully processed before the pause is observed), the stream fetches no page
beyond those p pages, ends with stage paused, and the terminal paused event
carries trained and skipped counters equal to the sums over exactly the
first p pages — the page in flight at the later check always completes. -/
theorem pause_correctness (k totalMeta : Nat) (service : CategorizerService)
    (seenIds : List String) (pages : List (List TxData))
    (hk : k < 2 * pages.length) :
    (stream (some k) totalMeta service seenIds pages).finalStage = "paused" ∧
    (stream (some k) totalMeta service seenIds pages).events.getLast? =
      some { stage := "paused",
             trained :=
               (train_bulk service seenIds (pages.take ((k + 1) / 2))).trained,
             skipped :=
               (train_bulk service seenIds (pages.take ((k + 1) / 2))).skipped,
             fetched :=
               (train_bulk service seenIds
                 (pages.take ((k + 1) / 2))).fetched } ∧
    (stream (some k) totalMeta service seenIds pages).trained =
      (train_bulk service seenIds (pages.take ((k + 1) / 2))).trained ∧
    (stream (some k) totalMeta service seenIds pages).skipped =
      (train_bulk service seenIds (pages.take ((k + 1) / 2))).skipped ∧
    (stream (some k) totalMeta service seenIds pages).fetched =
      (train_bulk service seenIds (pages.take ((k + 1) / 2))).fetched := by
  obtain ⟨hpr, htr, hsk, hfe⟩ := streamLoop_paused_spec pages k 0 totalMeta
    { service := service, seenIds := seenIds, events := [{ stage := "start" }] }
    (Nat.zero_le k) (by simpa using hk)
  dsimp only at htr hsk hfe
  rw [Nat.sub_zero] at htr hsk hfe
  refine ⟨?_, ?_, ?_, ?_, ?_⟩ <;>
    simp [stream, hpr, htr, hsk, hfe, List.getLast?_concat]

/-- Witness for pause_correctness: pause observed at check index 1 over a
single-page dataset pauses after that page with one trained example. -/
theorem pause_correctness_witness :
    (stream (some 1) 7 {} []
        [[{ txId := some "1", categoryName := some "Food",
            transaction := { description := "d" } }]]).finalStage = "paused" ∧
    (stream (some 1) 7 {} []
        [[{ txId := some "1", categoryName := some "Food",
            transaction := { description := "d" } }]]).trained = 1 :=
  ⟨(pause_correctness 1 7 {} []
      [[{ txId := some "1", categoryName := some "Food",
          transaction := { description := "d" } }]] (by decide)).1,
   by
     have h := (pause_correctness 1 7 {} []
       [[{ txId := some "1", categoryName := some "Food",
           transaction := { description := "d" } }]] (by decide)).2.2.1
     rw [h]
     decide⟩
